import Mathlib

/-!
Shallow embedding of the QA session engine and credential lifecycle of the
quant-seergo reporting backend, together with proofs of the specification
claims about them.

The embedding follows the Python source:
* `app/domains/{marketing,insights,operations}/repository.py` — conversation
  store queries (`get_qa_by_id`, `update_status`, `update_answer`,
  `get_chat_history`, `get_recent_history`, `get_report_context`).
* `app/domains/{marketing,insights,operations}/service.py` — `init_chat`,
  `stream_answer_generator`, `_handle_failure`, message assembly.
* `app/domains/auth/service.py` — `login`, `refresh_token`, `_create_tokens`.
* `app/domains/users/repository.py` — `get_by_phone_number`.

Database rows are Lean structures, tables are lists of rows, SQL `UPDATE`s are
maps over those lists, ORDER BY is insertion sort, and the async generator
`stream_answer_generator` is modelled as the trace of events (yielded SSE
frames and committed writes) it produces in program order; the final database
state is the fold of the committed writes over the initial state.
-/

namespace Seergo

/-- One row of a `*_report_qa` table (`app/db/models/insights_report_qa.py`
and its marketing/operations twins).  UUIDv7 keys and timestamps are
modelled as naturals; `status` is the raw string column, constrained only by
the database CHECK, exactly as in the source. -/
structure QARecord where
  id : Nat
  report_id : Nat
  user_id : String
  marketplace_id : String
  question : String
  answer : Option String
  status : String
  created_at : Nat
deriving DecidableEq, Repr

/-- The conversation store: the rows of one domain's QA table. -/
abbrev QAStore := List QARecord

/-- A JSON object payload (`mcp_data` column), modelled as its list of
(field, serialized value) entries.  Only object payloads occur (DB
constraint), and the engine only ever tests the object for Python
truthiness, i.e. non-emptiness. -/
abbrev JsonObj := List (String × String)

/-- One row of a `*_report` table, restricted to the fields the QA engine
reads: primary key and the nullable `mcp_data` context blob. -/
structure ReportRow where
  id : Nat
  mcp_data : Option JsonObj
deriving DecidableEq, Repr

abbrev ReportStore := List ReportRow

/-- `get_report_context` / `get_report_mcp_data`
(`repository.py`): `SELECT mcp_data WHERE id = report_id`, via
`scalar_one_or_none` — `none` when the row is missing, otherwise the
(possibly NULL) column value. -/
def get_report_context (reports : ReportStore) (report_id : Nat) : Option JsonObj :=
  (reports.find? (fun r => r.id == report_id)).bind (fun r => r.mcp_data)

/-- Python truthiness of the fetched `mcp_data` (`if not mcp_data:`):
`None` and the empty dict `{}` are both falsy. -/
def contextTruthy : Option JsonObj → Bool
  | none => false
  | some d => !d.isEmpty

/-- Python truthiness of a `str` (`if record.question ...`). -/
def pyTruthyStr (s : String) : Bool := s ≠ ""

/-- Python truthiness of a nullable `str` column (`... and record.answer`). -/
def pyTruthyOpt : Option String → Bool
  | none => false
  | some s => s ≠ ""

/-- `get_qa_by_id` (`repository.py`): `SELECT * WHERE id = qa_id`,
`scalar_one_or_none`. -/
def get_qa_by_id (store : QAStore) (qa_id : Nat) : Option QARecord :=
  store.find? (fun r => r.id == qa_id)

/-- `update_status` (`repository.py`): `UPDATE ... SET status = :status
WHERE id = :qa_id`. -/
def update_status (store : QAStore) (qa_id : Nat) (status : String) : QAStore :=
  store.map (fun r => if r.id == qa_id then { r with status := status } else r)

/-- `update_answer` (`repository.py`): `UPDATE ... SET answer = :answer,
status = :status WHERE id = :qa_id`. -/
def update_answer (store : QAStore) (qa_id : Nat) (answer : String) (status : String) :
    QAStore :=
  store.map (fun r =>
    if r.id == qa_id then { r with answer := some answer, status := status } else r)

/-- `ORDER BY created_at DESC` as a sorting relation. -/
def createdDesc (a b : QARecord) : Prop := b.created_at ≤ a.created_at

/-- `ORDER BY created_at ASC` as a sorting relation. -/
def createdAsc (a b : QARecord) : Prop := a.created_at ≤ b.created_at

instance : DecidableRel createdDesc := fun _ _ => Nat.decLe _ _

instance : DecidableRel createdAsc := fun _ _ => Nat.decLe _ _

instance : IsTotal QARecord createdDesc :=
  ⟨fun a b => (Nat.le_total b.created_at a.created_at).imp id id⟩

instance : IsTrans QARecord createdDesc :=
  ⟨fun _ _ _ h h' => Nat.le_trans h' h⟩

/-- The row filter of `get_recent_history`: same report, not the current
turn, COMPLETED, non-NULL answer. -/
def recentHistoryPred (report_id current_qa_id : Nat) (r : QARecord) : Bool :=
  r.report_id == report_id && r.id != current_qa_id &&
    r.status == "COMPLETED" && r.answer.isSome

/-- `get_recent_history` (`repository.py`): filter as above, `ORDER BY
created_at DESC`, `LIMIT limit`, then `reversed(...)` back to oldest→newest. -/
def get_recent_history (store : QAStore) (report_id current_qa_id limit : Nat) :
    List QARecord :=
  ((( store.filter (recentHistoryPred report_id current_qa_id)
    ).insertionSort createdDesc).take limit).reverse

/-- `get_chat_history` (`repository.py`): rows of the (report, user,
marketplace) triple, `ORDER BY created_at ASC`. -/
def get_chat_history (store : QAStore) (user_id marketplace_id : String)
    (report_id : Nat) : List QARecord :=
  (store.filter (fun r =>
      r.report_id == report_id && r.user_id == user_id &&
        r.marketplace_id == marketplace_id)
    ).insertionSort createdAsc

/-- The three near-identical QA engine variants (`app/domains/marketing`,
`app/domains/insights`, `app/domains/operations`). -/
inductive Variant
  | marketing
  | insights
  | operations
deriving DecidableEq, Repr

/-- One role-tagged message sent to the model
(`openai.types.chat.ChatCompletionMessageParam`). -/
structure ChatMsg where
  role : String
  content : String
deriving DecidableEq, Repr

/-- The prior-turn (question, answer) message pairs a variant's
`stream_answer_generator` appends between the system message and the current
question.  Marketing (`marketing/service.py` lines 125-128) builds its
message list without any history; insights and operations
(`insights/service.py` lines 150-163, `operations/service.py` lines 212-223)
call `get_recent_history(report_id, current_qa_id, limit=5)` and keep only
records with truthy `question` and truthy `answer`. -/
def variant_window : Variant → QAStore → Nat → Nat → List QARecord
  | .marketing, _, _, _ => []
  | .insights, store, report_id, qa_id =>
      (get_recent_history store report_id qa_id 5).filter
        (fun r => pyTruthyStr r.question && pyTruthyOpt r.answer)
  | .operations, store, report_id, qa_id =>
      (get_recent_history store report_id qa_id 5).filter
        (fun r => pyTruthyStr r.question && pyTruthyOpt r.answer)

/-- Message assembly of `stream_answer_generator` (step 4 of each variant's
service): the system message (domain prompt + serialized context, abstracted
as `sys`), then for insights/operations the loop
`for record in history_records: if record.question and record.answer:` which
appends one user and one assistant message per kept record, then the current
question.  Marketing appends no history. -/
def variant_messages (v : Variant) (sys : String) (store : QAStore)
    (report_id qa_id : Nat) (question : String) : List ChatMsg :=
  match v with
  | .marketing => [⟨"system", sys⟩, ⟨"user", question⟩]
  | .insights =>
      ⟨"system", sys⟩ ::
        ((get_recent_history store report_id qa_id 5).flatMap (fun r =>
          if pyTruthyStr r.question && pyTruthyOpt r.answer then
            [⟨"user", r.question⟩, ⟨"assistant", r.answer.getD ""⟩]
          else []) ++ [⟨"user", question⟩])
  | .operations =>
      ⟨"system", sys⟩ ::
        ((get_recent_history store report_id qa_id 5).flatMap (fun r =>
          if pyTruthyStr r.question && pyTruthyOpt r.answer then
            [⟨"user", r.question⟩, ⟨"assistant", r.answer.getD ""⟩]
          else []) ++ [⟨"user", question⟩])

/-- One SSE frame yielded by `stream_answer_generator`: an incremental
`data: {"content": ...}` frame, the `data: [DONE]` sentinel, or a
`data: [ERROR] ...` sentinel. -/
inductive Frame
  | content (s : String)
  | done
  | error (msg : String)
deriving DecidableEq, Repr

/-- One observable event of a `stream_answer_generator` run, in program
order: a yielded frame, or a committed database write
(`update_status`/`update_answer` followed by `session.commit()`). -/
inductive Ev
  | yield (f : Frame)
  | commitStatus (qa_id : Nat) (status : String)
  | commitAnswer (qa_id : Nat) (answer : String) (status : String)
deriving DecidableEq, Repr

/-- Effect of one event on the conversation store. -/
def runEv (store : QAStore) : Ev → QAStore
  | .yield _ => store
  | .commitStatus qa_id status => update_status store qa_id status
  | .commitAnswer qa_id answer status => update_answer store qa_id answer status

/-- Replay a trace of events over the store. -/
def runTrace (store : QAStore) (tr : List Ev) : QAStore :=
  tr.foldl runEv store

/-- The frames a trace yields, in order. -/
def framesOf (tr : List Ev) : List Frame :=
  tr.filterMap (fun e => match e with | .yield f => some f | _ => none)

/-- The status strings a trace commits, in order. -/
def statusWrites (tr : List Ev) : List String :=
  tr.filterMap (fun e => match e with
    | .commitStatus _ st => some st
    | .commitAnswer _ _ st => some st
    | .yield _ => none)

/-- Outcome of consuming the model's chunk stream: normal end of stream, an
`openai.APIError` with its `.message`, or any other exception
(`str(e)`). -/
inductive ModelOutcome
  | success
  | apiError (msg : String)
  | otherError (msg : String)
deriving DecidableEq, Repr

/-- The external model's behaviour for one call: the `delta.content` of each
chunk received before the stream ends or raises (`None` deltas included),
and how the stream ends. -/
structure ModelStream where
  chunks : List (Option String)
  outcome : ModelOutcome
deriving DecidableEq, Repr

/-- The fragments the consuming loop acts on: `if content:` keeps exactly
the non-`None`, non-empty deltas, which are both appended to
`full_answer_buffer` and yielded as content frames. -/
def truthyFragments (chunks : List (Option String)) : List String :=
  (chunks.filterMap id).filter (fun s => s ≠ "")

/-- The context-missing error text of the variant's step 2
(`"Report context missing"` for marketing, `"Report context data missing"`
for insights/operations). -/
def contextMissingMsg : Variant → String
  | .marketing => "Report context missing"
  | .insights => "Report context data missing"
  | .operations => "Report context data missing"

/-- `stream_answer_generator` (`service.py` of each variant), as the trace of
events it produces.  Control flow, in source order:
1. `get_qa_by_id`; missing → yield `[ERROR] Session not found`, return.
2. `get_report_context` / `get_report_mcp_data`; falsy → yield the
   variant's context-missing error frame, return.
3. `update_status(qa_id, "GENERATING")` + commit.
4./5. build messages, open the model stream; every truthy fragment is
   appended to the buffer and yielded as a content frame.
6. on normal end: `update_answer(qa_id, "".join(buffer), "COMPLETED")` +
   commit, then yield `[DONE]`.
7. on `APIError e`: yield `[ERROR] AI Service Error: {e.message}` then
   `_handle_failure`; on any other exception: yield
   `[ERROR] System Error: {e}` then `_handle_failure`.  `_handle_failure`
   tries `update_status(qa_id, "FAILED")` + commit and swallows any
   exception; `failWriteFails` selects whether that recovery write fails
   (then no write lands and nothing is raised). -/
def stream_answer_trace (v : Variant) (store : QAStore) (reports : ReportStore)
    (qa_id : Nat) (model : ModelStream) (failWriteFails : Bool) : List Ev :=
  match get_qa_by_id store qa_id with
  | none => [.yield (.error "Session not found")]
  | some qa =>
    if contextTruthy (get_report_context reports qa.report_id) = false then
      [.yield (.error (contextMissingMsg v))]
    else
      .commitStatus qa_id "GENERATING" ::
        ((truthyFragments model.chunks).map (fun c => .yield (.content c)) ++
          match model.outcome with
          | .success =>
              [.commitAnswer qa_id (String.join (truthyFragments model.chunks))
                 "COMPLETED",
               .yield .done]
          | .apiError m =>
              .yield (.error ("AI Service Error: " ++ m)) ::
                (if failWriteFails then [] else [.commitStatus qa_id "FAILED"])
          | .otherError m =>
              .yield (.error ("System Error: " ++ m)) ::
                (if failWriteFails then [] else [.commitStatus qa_id "FAILED"]))

/-- The conversation store after a `stream_answer_generator` run. -/
def stream_final_store (v : Variant) (store : QAStore) (reports : ReportStore)
    (qa_id : Nat) (model : ModelStream) (failWriteFails : Bool) : QAStore :=
  runTrace store (stream_answer_trace v store reports qa_id model failWriteFails)

/-- Error codes the embedded operations raise, from
`domains/*/constants.py` and `core/error_code.py`. -/
inductive ErrCode
  | reportNotFound
  | reportContextMissing
  | invalidCredentials
  | accountLocked
  | unauthorized
deriving DecidableEq, Repr

/-- HTTP status of each error code (`constants.py`: marketing
REPORT_NOT_FOUND 404, insights/operations REPORT_CONTEXT_MISSING 404,
auth INVALID_CREDENTIALS / ACCOUNT_LOCKED 403, system UNAUTHORIZED 401). -/
def httpStatus : ErrCode → Nat
  | .reportNotFound => 404
  | .reportContextMissing => 404
  | .invalidCredentials => 403
  | .accountLocked => 403
  | .unauthorized => 401

/-- The `ContextMissing` error each variant's `init_chat` raises
(`MarketingErrorCode.REPORT_NOT_FOUND`, else
`...ErrorCode.REPORT_CONTEXT_MISSING`). -/
def initErrCode : Variant → ErrCode
  | .marketing => .reportNotFound
  | .insights => .reportContextMissing
  | .operations => .reportContextMissing

/-- `init_chat` (`service.py` of each variant): fetch the context blob; if
falsy raise the variant's ContextMissing error without touching the store;
otherwise `create_qa_record` (status PENDING, answer NULL) and commit.  The
fresh UUIDv7 primary key and `created_at` timestamp provided by the
database are passed in as `new_id` / `now`.  Returns the result (the new
turn id, or the raised error) together with the resulting store. -/
def init_chat (v : Variant) (store : QAStore) (reports : ReportStore)
    (user_id marketplace_id : String) (report_id : Nat) (question : String)
    (new_id now : Nat) : Except ErrCode Nat × QAStore :=
  if contextTruthy (get_report_context reports report_id) = false then
    (.error (initErrCode v), store)
  else
    (.ok new_id,
      store ++ [{ id := new_id, report_id := report_id, user_id := user_id,
                  marketplace_id := marketplace_id, question := question,
                  answer := none, status := "PENDING", created_at := now }])

/-- One row of the users table, restricted to the fields `login` reads
(`app/db/models/user.py`, `app/domains/users/repository.py`). -/
structure UserRow where
  id : Nat
  phone_number : String
  hashed_password : String
  is_active : Bool
  is_deleted : Bool
deriving DecidableEq, Repr

abbrev UserStore := List UserRow

/-- `UserRepository.get_by_phone_number`: `SELECT * WHERE phone_number = :p
AND is_deleted IS FALSE`, `scalar_one_or_none` — soft-deleted users are
filtered out. -/
def get_by_phone_number (users : UserStore) (phone : String) : Option UserRow :=
  users.find? (fun u => u.phone_number == phone && !u.is_deleted)

/-- The token pair `_create_tokens` returns: a stateless access credential
carrying its subject id, and the opaque refresh credential string. -/
structure TokenPair where
  access_subject : String
  refresh_token : String
deriving DecidableEq, Repr

/-- `AuthService.login` (`auth/service.py`): look the user up by phone
(soft-deleted filtered out); missing → INVALID_CREDENTIALS; wrong password
(`verify_password_async` abstracted as the boolean `verify`) →
INVALID_CREDENTIALS; inactive → ACCOUNT_LOCKED; else issue tokens for
`str(user.id)`.  The fresh random refresh token of `_create_tokens` is
passed in as `newRefresh`. -/
def login (verify : String → String → Bool) (users : UserStore)
    (phone password newRefresh : String) : Except ErrCode TokenPair :=
  match get_by_phone_number users phone with
  | none => .error .invalidCredentials
  | some user =>
    if !(verify password user.hashed_password) then .error .invalidCredentials
    else if !user.is_active then .error .accountLocked
    else .ok ⟨toString user.id, newRefresh⟩

/-- The Redis key-value store holding refresh-token mappings, as an
association list `key → value` with at most one binding per key. -/
abbrev Redis := List (String × String)

/-- `redis.get`. -/
def redisGet (r : Redis) (key : String) : Option String :=
  (r.find? (fun p => p.1 == key)).map (fun p => p.2)

/-- `redis.delete`. -/
def redisDelete (r : Redis) (key : String) : Redis :=
  r.filter (fun p => p.1 != key)

/-- `redis.setex` (the TTL itself is not modelled; expiry appears as the
key's absence). -/
def redisSetex (r : Redis) (key value : String) : Redis :=
  (key, value) :: redisDelete r key

/-- `AuthService.refresh_token` (`auth/service.py`): read
`refresh_token:{token}` from Redis; falsy (absent / expired) → 401
UNAUTHORIZED; otherwise delete the old mapping, then `_create_tokens`
issues a new access credential for the stored `user_id` and stores
`refresh_token:{newRefresh} → user_id`.  The user table is passed in but —
as the source notes in a comment — deliberately never consulted.  Returns
the result and the resulting Redis state. -/
def refresh_token (redis : Redis) (_users : UserStore)
    (token newRefresh : String) : Except ErrCode TokenPair × Redis :=
  match redisGet redis ("refresh_token:" ++ token) with
  | none => (.error .unauthorized, redis)
  | some user_id =>
    if user_id = "" then (.error .unauthorized, redis)
    else
      let r1 := redisDelete redis ("refresh_token:" ++ token)
      let r2 := redisSetex r1 ("refresh_token:" ++ newRefresh) user_id
      (.ok ⟨user_id, newRefresh⟩, r2)

/-! ### Helper lemmas -/

lemma get_qa_by_id_update_status (store : QAStore) (qa : QARecord) (i : Nat)
    (st : String) (h : get_qa_by_id store i = some qa) :
    get_qa_by_id (update_status store i st) i = some { qa with status := st } := by
  have hid : (qa.id == i) = true := by
    simpa using List.find?_some (p := fun r : QARecord => r.id == i) h
  unfold get_qa_by_id update_status at *
  rw [List.find?_map]
  have hpf : ((fun r : QARecord => r.id == i) ∘ fun r =>
      if r.id == i then { r with status := st } else r) =
      (fun r : QARecord => r.id == i) := by
    funext r
    by_cases hr : r.id = i <;> simp [hr]
  rw [hpf, h]
  simp only [Option.map]
  simp [hid]

lemma get_qa_by_id_update_answer (store : QAStore) (qa : QARecord) (i : Nat)
    (ans st : String) (h : get_qa_by_id store i = some qa) :
    get_qa_by_id (update_answer store i ans st) i =
      some { qa with answer := some ans, status := st } := by
  have hid : (qa.id == i) = true := by
    simpa using List.find?_some (p := fun r : QARecord => r.id == i) h
  unfold get_qa_by_id update_answer at *
  rw [List.find?_map]
  have hpf : ((fun r : QARecord => r.id == i) ∘ fun r =>
      if r.id == i then { r with answer := some ans, status := st } else r) =
      (fun r : QARecord => r.id == i) := by
    funext r
    by_cases hr : r.id = i <;> simp [hr]
  rw [hpf, h]
  simp only [Option.map]
  simp [hid]

lemma runTrace_append (store : QAStore) (t₁ t₂ : List Ev) :
    runTrace store (t₁ ++ t₂) = runTrace (runTrace store t₁) t₂ :=
  List.foldl_append ..

lemma runTrace_cons (store : QAStore) (e : Ev) (t : List Ev) :
    runTrace store (e :: t) = runTrace (runEv store e) t := rfl

lemma runTrace_map_yield (store : QAStore) (l : List String) (f : String → Frame) :
    runTrace store (l.map (fun c => Ev.yield (f c))) = store := by
  induction l with
  | nil => rfl
  | cons a l ih => simpa [runTrace_cons, runEv] using ih

lemma framesOf_map_content (l : List String) :
    framesOf (l.map (fun c => Ev.yield (Frame.content c))) = l.map Frame.content := by
  induction l with
  | nil => rfl
  | cons a l ih => simp [framesOf] at ih ⊢; exact ih

lemma framesOf_append (t₁ t₂ : List Ev) :
    framesOf (t₁ ++ t₂) = framesOf t₁ ++ framesOf t₂ :=
  List.filterMap_append ..

lemma framesOf_cons_yield (f : Frame) (t : List Ev) :
    framesOf (.yield f :: t) = f :: framesOf t := by
  simp [framesOf]

lemma framesOf_cons_commitStatus (i : Nat) (st : String) (t : List Ev) :
    framesOf (.commitStatus i st :: t) = framesOf t := by
  simp [framesOf]

lemma framesOf_cons_commitAnswer (i : Nat) (ans st : String) (t : List Ev) :
    framesOf (.commitAnswer i ans st :: t) = framesOf t := by
  simp [framesOf]

lemma framesOf_nil : framesOf [] = [] := rfl

lemma mem_recent_history {store : QAStore} {rid qid lim : Nat} {r : QARecord}
    (h : r ∈ get_recent_history store rid qid lim) :
    recentHistoryPred rid qid r = true := by
  unfold get_recent_history at h
  rw [List.mem_reverse] at h
  have h2 : r ∈ (store.filter (recentHistoryPred rid qid)).insertionSort createdDesc :=
    (List.take_sublist _ _).subset h
  have h3 : r ∈ store.filter (recentHistoryPred rid qid) :=
    (List.perm_insertionSort createdDesc _).mem_iff.mp h2
  exact (List.mem_filter.mp h3).2

lemma recent_history_length_le (store : QAStore) (rid qid lim : Nat) :
    (get_recent_history store rid qid lim).length ≤ lim := by
  unfold get_recent_history
  rw [List.length_reverse, List.length_take]
  exact min_le_left _ _

lemma recent_history_pairwise (store : QAStore) (rid qid lim : Nat) :
    (get_recent_history store rid qid lim).Pairwise createdAsc := by
  unfold get_recent_history
  rw [List.pairwise_reverse]
  have hs : List.Pairwise createdDesc
      ((store.filter (recentHistoryPred rid qid)).insertionSort createdDesc) :=
    List.sorted_insertionSort createdDesc _
  exact List.Pairwise.sublist (List.take_sublist _ _) hs

lemma flatMap_if_filter {α β : Type} (p : α → Bool) (f : α → List β) (l : List α) :
    (l.flatMap (fun a => if p a then f a else [])) = (l.filter p).flatMap f := by
  induction l with
  | nil => rfl
  | cons a l ih => by_cases h : p a <;> simp [h, ih]

/-! ### Claim theorems -/

/-- C1: in every domain variant, the prior-turn history window passed to the
model contains only turns of the same report with status COMPLETED and a
non-null answer, never contains the current turn's id, has at most 5
entries, is ordered chronologically oldest to newest, and each entry
contributes exactly one (question, answer) message pair between the system
message and the current question.  (The marketing variant assembles its
messages without any history, so its window is empty and satisfies all of
these bounds vacuously.) -/
theorem C1_history_window (v : Variant) (store : QAStore) (rid qid : Nat)
    (sys question : String) :
    (∀ r ∈ variant_window v store rid qid,
        r.report_id = rid ∧ r.status = "COMPLETED" ∧ r.answer ≠ none ∧ r.id ≠ qid) ∧
    (variant_window v store rid qid).length ≤ 5 ∧
    (variant_window v store rid qid).Pairwise createdAsc ∧
    variant_messages v sys store rid qid question =
      ⟨"system", sys⟩ ::
        ((variant_window v store rid qid).flatMap (fun r =>
            [⟨"user", r.question⟩, ⟨"assistant", r.answer.getD ""⟩]) ++
          [⟨"user", question⟩]) := by
  have hmem : ∀ r ∈ (get_recent_history store rid qid 5).filter
      (fun r => pyTruthyStr r.question && pyTruthyOpt r.answer),
      r.report_id = rid ∧ r.status = "COMPLETED" ∧ r.answer ≠ none ∧ r.id ≠ qid := by
    intro r hr
    have h1 := (List.mem_filter.mp hr).1
    have h2 := mem_recent_history h1
    unfold recentHistoryPred at h2
    simp only [Bool.and_eq_true, beq_iff_eq, bne_iff_ne, ne_eq,
      Option.isSome_iff_exists] at h2
    obtain ⟨⟨⟨hrep, hid⟩, hst⟩, a, ha⟩ := h2
    exact ⟨hrep, hst, by simp [ha], hid⟩
  have hlen : ((get_recent_history store rid qid 5).filter
      (fun r => pyTruthyStr r.question && pyTruthyOpt r.answer)).length ≤ 5 :=
    le_trans (List.length_filter_le _ _) (recent_history_length_le store rid qid 5)
  have hpw : ((get_recent_history store rid qid 5).filter
      (fun r => pyTruthyStr r.question && pyTruthyOpt r.answer)).Pairwise createdAsc :=
    (recent_history_pairwise store rid qid 5).filter _
  have hflat := flatMap_if_filter
    (fun r : QARecord => pyTruthyStr r.question && pyTruthyOpt r.answer)
    (fun r => [ChatMsg.mk "user" r.question, ChatMsg.mk "assistant" (r.answer.getD "")])
    (get_recent_history store rid qid 5)
  cases v with
  | marketing =>
      refine ⟨?_, ?_, ?_, ?_⟩
      · intro r hr
        cases hr
      · simp [variant_window]
      · simp [variant_window]
      · simp [variant_window, variant_messages]
  | insights =>
      refine ⟨hmem, hlen, hpw, ?_⟩
      simp only [variant_messages, variant_window]
      rw [hflat]
  | operations =>
      refine ⟨hmem, hlen, hpw, ?_⟩
      simp only [variant_messages, variant_window]
      rw [hflat]

/-- The four status values admitted by the database CHECK constraint
(`insights_report_qa.py` and twins). -/
def validStatuses : List String := ["PENDING", "GENERATING", "COMPLETED", "FAILED"]

/-- Every row's status is one of the four admitted values. -/
def statusesValid (store : QAStore) : Prop :=
  ∀ r ∈ store, r.status ∈ validStatuses

lemma statusesValid_update_status {store : QAStore} {i : Nat} {st : String}
    (h : statusesValid store) (hst : st ∈ validStatuses) :
    statusesValid (update_status store i st) := by
  intro r hr
  unfold update_status at hr
  rcases List.mem_map.mp hr with ⟨r0, hr0, rfl⟩
  by_cases h0 : r0.id = i <;> simp [h0]
  · exact hst
  · exact h r0 hr0

lemma statusesValid_update_answer {store : QAStore} {i : Nat} {ans st : String}
    (h : statusesValid store) (hst : st ∈ validStatuses) :
    statusesValid (update_answer store i ans st) := by
  intro r hr
  unfold update_answer at hr
  rcases List.mem_map.mp hr with ⟨r0, hr0, rfl⟩
  by_cases h0 : r0.id = i <;> simp [h0]
  · exact hst
  · exact h r0 hr0

lemma statusesValid_stream (v : Variant) (store : QAStore) (reports : ReportStore)
    (qid : Nat) (model : ModelStream) (wf : Bool) (h : statusesValid store) :
    statusesValid (stream_final_store v store reports qid model wf) := by
  unfold stream_final_store
  cases hq : get_qa_by_id store qid with
  | none =>
      simp only [stream_answer_trace, hq]
      simpa [runTrace_cons, runEv, runTrace] using h
  | some qa =>
    simp only [stream_answer_trace, hq]
    by_cases hc : contextTruthy (get_report_context reports qa.report_id) = false
    · simpa [hc, runTrace_cons, runEv, runTrace] using h
    · rw [if_neg hc, runTrace_cons]
      simp only [runEv]
      rw [runTrace_append, runTrace_map_yield]
      have h1 : statusesValid (update_status store qid "GENERATING") :=
        statusesValid_update_status h (by simp [validStatuses])
      cases model.outcome with
      | success =>
          simp only [runTrace_cons, runEv, runTrace, List.foldl]
          exact statusesValid_update_answer h1 (by simp [validStatuses])
      | apiError m =>
          cases wf with
          | true => simpa [runTrace_cons, runEv, runTrace] using h1
          | false =>
              simp only [runTrace_cons, runEv, runTrace, List.foldl]
              exact statusesValid_update_status h1 (by simp [validStatuses])
      | otherError m =>
          cases wf with
          | true => simpa [runTrace_cons, runEv, runTrace] using h1
          | false =>
              simp only [runTrace_cons, runEv, runTrace, List.foldl]
              exact statusesValid_update_status h1 (by simp [validStatuses])

/-- Concrete fixtures shared by the witness and counterexample theorems:
a PENDING turn, a COMPLETED turn with a persisted answer, and a report
with a non-empty context blob. -/
def wPending : QARecord :=
  { id := 1, report_id := 10, user_id := "u1", marketplace_id := "m1",
    question := "q", answer := none, status := "PENDING", created_at := 100 }

def wCompleted : QARecord :=
  { id := 1, report_id := 10, user_id := "u1", marketplace_id := "m1",
    question := "q", answer := some "old", status := "COMPLETED", created_at := 100 }

def wReports : ReportStore := [{ id := 10, mcp_data := some [("k", "v")] }]

/-- C2 (corrected): every status the engine writes keeps each row's status
inside {PENDING, GENERATING, COMPLETED, FAILED} (this part of the claim
holds), but the engine does not guard terminal states: whenever the turn
exists and the context is present, `stream_answer_generator` begins by
committing status GENERATING for that turn regardless of its prior status —
so re-invoking it on a COMPLETED or FAILED turn does move the row back to
GENERATING and mutates it again. -/
theorem C2_status_writes (v : Variant) (store : QAStore) (reports : ReportStore)
    (u m q : String) (rid nid now qid : Nat) (model : ModelStream) (wf : Bool)
    (qa : QARecord) (h : statusesValid store) :
    statusesValid (init_chat v store reports u m rid q nid now).2 ∧
    statusesValid (stream_final_store v store reports qid model wf) ∧
    (get_qa_by_id store qid = some qa →
      contextTruthy (get_report_context reports qa.report_id) = true →
      (stream_answer_trace v store reports qid model wf).head? =
        some (.commitStatus qid "GENERATING")) := by
  refine ⟨?_, statusesValid_stream v store reports qid model wf h, ?_⟩
  · unfold init_chat
    by_cases hc : contextTruthy (get_report_context reports rid) = false
    · simpa [hc] using h
    · rw [if_neg hc]
      intro r hr
      rcases List.mem_append.mp hr with h1 | h1
      · exact h r h1
      · rcases List.mem_singleton.mp h1 with rfl
        simp [validStatuses]
  · intro hq hc
    unfold stream_answer_trace
    rw [hq]
    simp [hc]

/-- C2 counterexample: a COMPLETED turn (answer already persisted) is
re-streamed; the model errors, and the engine rewrites the row from
COMPLETED to FAILED — the row is mutated after reaching a terminal state,
contradicting the claim. -/
theorem C2_counterexample :
    ([wCompleted].map (fun r => r.status) = ["COMPLETED"]) ∧
    ((stream_final_store .insights [wCompleted] wReports 1
        { chunks := [], outcome := .apiError "boom" } false).map
      (fun r => r.status) = ["FAILED"]) := by
  constructor
  · rfl
  · rfl

/-- Witness for the amended C2 theorem at a concrete store. -/
theorem C2_status_writes_witness :
    statusesValid [wPending] ∧
    (statusesValid
        (init_chat .insights [wPending] wReports "u1" "m1" 10 "q2" 2 200).2 ∧
      statusesValid (stream_final_store .insights [wPending] wReports 1
        { chunks := [some "hi"], outcome := .success } false) ∧
      (get_qa_by_id [wPending] 1 = some wPending →
        contextTruthy (get_report_context wReports wPending.report_id) = true →
        (stream_answer_trace .insights [wPending] wReports 1
            { chunks := [some "hi"], outcome := .success } false).head? =
          some (.commitStatus 1 "GENERATING"))) := by
  have hv : statusesValid [wPending] := by
    intro r hr
    rcases List.mem_singleton.mp hr with rfl
    simp [wPending, validStatuses]
  exact ⟨hv, C2_status_writes .insights [wPending] wReports "u1" "m1" "q2" 10 2 200 1
    { chunks := [some "hi"], outcome := .success } false wPending hv⟩

lemma stream_answer_trace_found (v : Variant) (store : QAStore)
    (reports : ReportStore) (qid : Nat) (model : ModelStream) (wf : Bool)
    (qa : QARecord) (hq : get_qa_by_id store qid = some qa)
    (hc : contextTruthy (get_report_context reports qa.report_id) = true) :
    stream_answer_trace v store reports qid model wf =
      Ev.commitStatus qid "GENERATING" ::
        ((truthyFragments model.chunks).map (fun c => Ev.yield (Frame.content c)) ++
          match model.outcome with
          | .success =>
              [Ev.commitAnswer qid (String.join (truthyFragments model.chunks))
                 "COMPLETED", Ev.yield Frame.done]
          | .apiError m =>
              Ev.yield (Frame.error ("AI Service Error: " ++ m)) ::
                (if wf then [] else [Ev.commitStatus qid "FAILED"])
          | .otherError m =>
              Ev.yield (Frame.error ("System Error: " ++ m)) ::
                (if wf then [] else [Ev.commitStatus qid "FAILED"])) := by
  simp only [stream_answer_trace, hq]
  simp [hc]

lemma stream_final_store_success (v : Variant) (store : QAStore)
    (reports : ReportStore) (qid : Nat) (model : ModelStream) (wf : Bool)
    (qa : QARecord) (hq : get_qa_by_id store qid = some qa)
    (hc : contextTruthy (get_report_context reports qa.report_id) = true)
    (hout : model.outcome = .success) :
    stream_final_store v store reports qid model wf =
      update_answer (update_status store qid "GENERATING") qid
        (String.join (truthyFragments model.chunks)) "COMPLETED" := by
  unfold stream_final_store
  rw [stream_answer_trace_found v store reports qid model wf qa hq hc]
  simp only [hout]
  rw [runTrace_cons]
  simp only [runEv]
  rw [runTrace_append, runTrace_map_yield]
  simp [runTrace, runEv]

lemma stream_final_store_failure (v : Variant) (store : QAStore)
    (reports : ReportStore) (qid : Nat) (model : ModelStream) (wf : Bool)
    (qa : QARecord) (emsg : String) (hq : get_qa_by_id store qid = some qa)
    (hc : contextTruthy (get_report_context reports qa.report_id) = true)
    (hout : model.outcome = .apiError emsg ∨ model.outcome = .otherError emsg) :
    stream_final_store v store reports qid model wf =
      (if wf then update_status store qid "GENERATING"
       else update_status (update_status store qid "GENERATING") qid "FAILED") := by
  unfold stream_final_store
  rw [stream_answer_trace_found v store reports qid model wf qa hq hc]
  rcases hout with h | h <;>
    · simp only [h]
      rw [runTrace_cons]
      simp only [runEv]
      rw [runTrace_append, runTrace_map_yield]
      cases wf <;> simp [runTrace, runEv]

/-- C3: when the model stream errors (API error or any other exception)
after zero or more fragments, the run emits exactly the already-emitted
content frames followed by exactly one terminal ERROR frame; the turn ends
with a null answer (the partial buffer is never persisted — the failure
handler writes only the status), with status FAILED whenever the recovery
write succeeds; and the failure handler swallows a failing FAILED write, so
the consumer-visible frames are the same whether or not that write fails
(the frame equation below holds for both values of `wf`). -/
theorem C3_failure_path (v : Variant) (store : QAStore) (reports : ReportStore)
    (qid : Nat) (model : ModelStream) (wf : Bool) (qa : QARecord) (emsg : String)
    (hq : get_qa_by_id store qid = some qa)
    (hc : contextTruthy (get_report_context reports qa.report_id) = true)
    (hans : qa.answer = none)
    (hout : model.outcome = .apiError emsg ∨ model.outcome = .otherError emsg) :
    (∃ m, framesOf (stream_answer_trace v store reports qid model wf) =
        (truthyFragments model.chunks).map Frame.content ++ [Frame.error m]) ∧
    ∃ qa', get_qa_by_id (stream_final_store v store reports qid model wf) qid =
        some qa' ∧ qa'.answer = none ∧ (wf = false → qa'.status = "FAILED") := by
  constructor
  · rw [stream_answer_trace_found v store reports qid model wf qa hq hc]
    rcases hout with h | h
    · refine ⟨"AI Service Error: " ++ emsg, ?_⟩
      simp only [h]
      cases wf <;>
        simp [framesOf_cons_commitStatus, framesOf_append, framesOf_map_content,
          framesOf_cons_yield, framesOf_nil]
    · refine ⟨"System Error: " ++ emsg, ?_⟩
      simp only [h]
      cases wf <;>
        simp [framesOf_cons_commitStatus, framesOf_append, framesOf_map_content,
          framesOf_cons_yield, framesOf_nil]
  · rw [stream_final_store_failure v store reports qid model wf qa emsg hq hc hout]
    cases wf with
    | true =>
        refine ⟨{ qa with status := "GENERATING" }, ?_, ?_, ?_⟩
        · simpa using get_qa_by_id_update_status store qa qid "GENERATING" hq
        · simpa using hans
        · intro hwf
          cases hwf
    | false =>
        refine ⟨{ qa with status := "FAILED" }, ?_, ?_, ?_⟩
        · have h1 := get_qa_by_id_update_status store qa qid "GENERATING" hq
          have h2 := get_qa_by_id_update_status
            (update_status store qid "GENERATING") { qa with status := "GENERATING" }
            qid "FAILED" h1
          simpa using h2
        · simpa using hans
        · intro _
          rfl

/-- C4: when the model stream ends normally, the run yields the content
frames in emission order followed by DONE, the commit of the concatenated
answer with status COMPLETED happens before the DONE frame (it is the
second-to-last trace event), the stored row carries exactly that
concatenation, and the turn is retrievable through `get_chat_history` with
that answer and status. -/
theorem C4_success_path (v : Variant) (store : QAStore) (reports : ReportStore)
    (qid : Nat) (model : ModelStream) (wf : Bool) (qa : QARecord)
    (hq : get_qa_by_id store qid = some qa)
    (hc : contextTruthy (get_report_context reports qa.report_id) = true)
    (hout : model.outcome = .success) :
    framesOf (stream_answer_trace v store reports qid model wf) =
      (truthyFragments model.chunks).map Frame.content ++ [Frame.done] ∧
    (∃ pre, stream_answer_trace v store reports qid model wf =
        pre ++ [Ev.commitAnswer qid (String.join (truthyFragments model.chunks))
                  "COMPLETED", Ev.yield Frame.done]) ∧
    get_qa_by_id (stream_final_store v store reports qid model wf) qid =
      some { qa with answer := some (String.join (truthyFragments model.chunks)),
                     status := "COMPLETED" } ∧
    { qa with answer := some (String.join (truthyFragments model.chunks)),
              status := "COMPLETED" } ∈
      get_chat_history (stream_final_store v store reports qid model wf)
        qa.user_id qa.marketplace_id qa.report_id := by
  have htr := stream_answer_trace_found v store reports qid model wf qa hq hc
  have hid : (qa.id == qid) = true := by
    simpa using List.find?_some (p := fun r : QARecord => r.id == qid) hq
  have hfin := stream_final_store_success v store reports qid model wf qa hq hc hout
  have hget : get_qa_by_id (stream_final_store v store reports qid model wf) qid =
      some { qa with answer := some (String.join (truthyFragments model.chunks)),
                     status := "COMPLETED" } := by
    rw [hfin]
    have h1 := get_qa_by_id_update_status store qa qid "GENERATING" hq
    have h2 := get_qa_by_id_update_answer
      (update_status store qid "GENERATING") { qa with status := "GENERATING" }
      qid (String.join (truthyFragments model.chunks)) "COMPLETED" h1
    simpa using h2
  refine ⟨?_, ?_, hget, ?_⟩
  · rw [htr]
    simp only [hout]
    simp [framesOf_cons_commitStatus, framesOf_append, framesOf_map_content,
      framesOf_cons_yield, framesOf_cons_commitAnswer, framesOf_nil]
  · refine ⟨Ev.commitStatus qid "GENERATING" ::
      (truthyFragments model.chunks).map (fun c => Ev.yield (Frame.content c)), ?_⟩
    rw [htr]
    simp [hout]
  · have hmem0 : qa ∈ store := List.mem_of_find?_eq_some hq
    have hmem1 : ({ qa with status := "GENERATING" } : QARecord) ∈
        update_status store qid "GENERATING" := by
      unfold update_status
      have hm := List.mem_map_of_mem
        (fun r : QARecord =>
          if r.id == qid then { r with status := "GENERATING" } else r) hmem0
      simpa [hid] using hm
    have hmem2 :
        ({ qa with answer := some (String.join (truthyFragments model.chunks)),
                   status := "COMPLETED" } : QARecord) ∈
          stream_final_store v store reports qid model wf := by
      rw [hfin]
      unfold update_answer
      have hm := List.mem_map_of_mem
        (fun r : QARecord =>
          if r.id == qid then
            { r with answer := some (String.join (truthyFragments model.chunks)),
                     status := "COMPLETED" }
          else r) hmem1
      simpa [hid] using hm
    unfold get_chat_history
    rw [(List.perm_insertionSort createdAsc _).mem_iff]
    exact List.mem_filter.mpr ⟨hmem2, by simp⟩

/-- A model stream that ends normally after three chunks (one `None` delta
and one empty delta among them, which the loop skips). -/
def wModelOk : ModelStream :=
  { chunks := [some "Spend ", none, some "", some "increased 20%."],
    outcome := .success }

/-- A model stream that raises an APIError after one fragment. -/
def wModelErr : ModelStream :=
  { chunks := [some "Hi "], outcome := .apiError "x" }

/-- Witness for C3 at a concrete store, report and failing model stream. -/
theorem C3_failure_path_witness :
    get_qa_by_id [wPending] 1 = some wPending ∧
    contextTruthy (get_report_context wReports wPending.report_id) = true ∧
    wPending.answer = none ∧
    ((∃ m, framesOf (stream_answer_trace .marketing [wPending] wReports 1
          wModelErr false) =
        (truthyFragments wModelErr.chunks).map Frame.content ++ [Frame.error m]) ∧
      ∃ qa', get_qa_by_id (stream_final_store .marketing [wPending] wReports 1
          wModelErr false) 1 =
          some qa' ∧ qa'.answer = none ∧ (false = false → qa'.status = "FAILED")) :=
  ⟨by decide, by decide, by decide,
    C3_failure_path .marketing [wPending] wReports 1 wModelErr false wPending "x"
      (by decide) (by decide) (by decide) (Or.inl rfl)⟩

/-- Witness for C4 at a concrete store, report and successful model stream. -/
theorem C4_success_path_witness :
    get_qa_by_id [wPending] 1 = some wPending ∧
    contextTruthy (get_report_context wReports wPending.report_id) = true ∧
    (framesOf (stream_answer_trace .insights [wPending] wReports 1 wModelOk false) =
        (truthyFragments wModelOk.chunks).map Frame.content ++ [Frame.done] ∧
      (∃ pre, stream_answer_trace .insights [wPending] wReports 1 wModelOk false =
          pre ++ [Ev.commitAnswer 1 (String.join (truthyFragments wModelOk.chunks))
                    "COMPLETED", Ev.yield Frame.done]) ∧
      get_qa_by_id (stream_final_store .insights [wPending] wReports 1 wModelOk false)
          1 =
        some { wPending with
               answer := some (String.join (truthyFragments wModelOk.chunks)),
               status := "COMPLETED" } ∧
      { wPending with
        answer := some (String.join (truthyFragments wModelOk.chunks)),
        status := "COMPLETED" } ∈
        get_chat_history
          (stream_final_store .insights [wPending] wReports 1 wModelOk false)
          wPending.user_id wPending.marketplace_id wPending.report_id) :=
  ⟨by decide, by decide,
    C4_success_path .insights [wPending] wReports 1 wModelOk false wPending
      (by decide) (by decide) rfl⟩

/-- C5: `init_chat` on a report whose context blob is absent fails with the
variant's ContextMissing error code (a 404 "not found"-class error) and
returns the conversation store unchanged — no turn row is created. -/
theorem C5_init_absent_context (v : Variant) (store : QAStore)
    (reports : ReportStore) (u m q : String) (rid nid now : Nat)
    (h : get_report_context reports rid = none) :
    init_chat v store reports u m rid q nid now = (.error (initErrCode v), store) ∧
    httpStatus (initErrCode v) = 404 := by
  constructor
  · unfold init_chat
    rw [h]
    simp [contextTruthy]
  · cases v <;> rfl

/-- Witness for C5: an empty report table. -/
theorem C5_init_absent_context_witness :
    get_report_context [] 10 = none ∧
    (init_chat .marketing [wPending] [] "u1" "m1" 10 "q2" 2 200 =
        (.error (initErrCode .marketing), [wPending]) ∧
      httpStatus (initErrCode .marketing) = 404) :=
  ⟨rfl, C5_init_absent_context .marketing [wPending] [] "u1" "m1" "q2" 10 2 200 rfl⟩

/-- C6: `stream_answer_generator` on an unknown turn id, or on a turn whose
report context is absent at stream time, emits exactly one terminal ERROR
frame and performs no state mutation: the conversation store after the run
is the one before it (so the turn, when it exists, keeps its prior status
and answer and is not marked FAILED). -/
theorem C6_stream_read_fail_no_mutation (v : Variant) (store : QAStore)
    (reports : ReportStore) (qid : Nat) (model : ModelStream) (wf : Bool)
    (h : get_qa_by_id store qid = none ∨
      ∀ qa, get_qa_by_id store qid = some qa →
        contextTruthy (get_report_context reports qa.report_id) = false) :
    (∃ m, stream_answer_trace v store reports qid model wf =
        [.yield (.error m)]) ∧
    stream_final_store v store reports qid model wf = store := by
  have htr : ∃ m, stream_answer_trace v store reports qid model wf =
      [.yield (.error m)] := by
    cases hq : get_qa_by_id store qid with
    | none =>
        refine ⟨"Session not found", ?_⟩
        simp [stream_answer_trace, hq]
    | some qa =>
        rcases h with h | h
        · rw [hq] at h
          cases h
        · have hc := h qa hq
          refine ⟨contextMissingMsg v, ?_⟩
          simp [stream_answer_trace, hq, hc]
  rcases htr with ⟨m, hm⟩
  refine ⟨⟨m, hm⟩, ?_⟩
  unfold stream_final_store
  rw [hm]
  rfl

/-- Witness for C6: unknown turn id on an empty store. -/
theorem C6_stream_read_fail_no_mutation_witness :
    (get_qa_by_id [] 0 = none ∨
      ∀ qa, get_qa_by_id [] 0 = some qa →
        contextTruthy (get_report_context wReports qa.report_id) = false) ∧
    ((∃ m, stream_answer_trace .operations [] wReports 0 wModelOk false =
        [.yield (.error m)]) ∧
      stream_final_store .operations [] wReports 0 wModelOk false = []) :=
  ⟨Or.inl rfl,
    C6_stream_read_fail_no_mutation .operations [] wReports 0 wModelOk false
      (Or.inl rfl)⟩

/-- A deactivated (but not deleted) user whose stored secret is `"pw"`
under the abstracted hash check `fun a b => a == b`. -/
def wLockedUser : UserRow :=
  { id := 7, phone_number := "p1", hashed_password := "pw", is_active := false,
    is_deleted := false }

/-- C7 (corrected): a login with an identifier that does not exist or
belongs to a soft-deleted user, and a login with an existing identifier but
a wrong secret, return the identical generic INVALID_CREDENTIALS error. -/
theorem C7_login_masking (verify : String → String → Bool) (users : UserStore)
    (phone password newRefresh : String)
    (h : get_by_phone_number users phone = none ∨
      ∀ u, get_by_phone_number users phone = some u →
        verify password u.hashed_password = false) :
    login verify users phone password newRefresh = .error .invalidCredentials := by
  unfold login
  cases hu : get_by_phone_number users phone with
  | none => rfl
  | some u =>
      rcases h with h | h
      · rw [hu] at h
        cases h
      · have hv := h u hu
        simp [hv]

/-- C7 counterexample: a deactivated account with the correct secret gets
ACCOUNT_LOCKED, while a nonexistent identifier gets INVALID_CREDENTIALS —
the two failures are distinguishable, contrary to the claim. -/
theorem C7_counterexample :
    login (fun a b => a == b) [wLockedUser] "p1" "pw" "r" =
      .error .accountLocked ∧
    login (fun a b => a == b) [wLockedUser] "p2" "pw" "r" =
      .error .invalidCredentials ∧
    ErrCode.accountLocked ≠ ErrCode.invalidCredentials := by
  refine ⟨rfl, rfl, ?_⟩
  intro h
  cases h

/-- Witness for the amended C7 theorem: unknown identifier. -/
theorem C7_login_masking_witness :
    (get_by_phone_number [wLockedUser] "p2" = none ∨
      ∀ u, get_by_phone_number [wLockedUser] "p2" = some u →
        (fun a b : String => a == b) "pw" u.hashed_password = false) ∧
    login (fun a b => a == b) [wLockedUser] "p2" "pw" "r" =
      .error .invalidCredentials :=
  ⟨Or.inl rfl,
    C7_login_masking (fun a b => a == b) [wLockedUser] "p2" "pw" "r" (Or.inl rfl)⟩

/-- C8: a normally-ending model stream with zero truthy fragments commits
the turn as COMPLETED with the empty string (not NULL) as its answer and
emits only the DONE frame; and because the service-level history filter
tests answers for Python truthiness, a record whose answer is the empty
string is excluded from every later sliding window of every variant, even
though it is COMPLETED with a non-null answer. -/
theorem C8_empty_answer (v : Variant) (store : QAStore) (reports : ReportStore)
    (qid : Nat) (model : ModelStream) (wf : Bool) (qa : QARecord)
    (hq : get_qa_by_id store qid = some qa)
    (hc : contextTruthy (get_report_context reports qa.report_id) = true)
    (hout : model.outcome = .success)
    (hfr : truthyFragments model.chunks = []) :
    framesOf (stream_answer_trace v store reports qid model wf) = [Frame.done] ∧
    get_qa_by_id (stream_final_store v store reports qid model wf) qid =
      some { qa with answer := some "", status := "COMPLETED" } ∧
    (∀ v' s' rid' qid' r, r ∈ variant_window v' s' rid' qid' →
      r.answer ≠ some "") := by
  refine ⟨?_, ?_, ?_⟩
  · rw [stream_answer_trace_found v store reports qid model wf qa hq hc]
    simp only [hout, hfr]
    simp [framesOf_cons_commitStatus, framesOf_append, framesOf_cons_commitAnswer,
      framesOf_cons_yield, framesOf_nil]
  · rw [stream_final_store_success v store reports qid model wf qa hq hc hout, hfr]
    have h1 := get_qa_by_id_update_status store qa qid "GENERATING" hq
    have h2 := get_qa_by_id_update_answer
      (update_status store qid "GENERATING") { qa with status := "GENERATING" }
      qid (String.join []) "COMPLETED" h1
    simpa [String.join] using h2
  · intro v' s' rid' qid' r hr hans0
    cases v' with
    | marketing => cases hr
    | insights =>
        have h2 := (List.mem_filter.mp hr).2
        rw [Bool.and_eq_true] at h2
        have h3 := h2.2
        rw [hans0] at h3
        simp [pyTruthyOpt] at h3
    | operations =>
        have h2 := (List.mem_filter.mp hr).2
        rw [Bool.and_eq_true] at h2
        have h3 := h2.2
        rw [hans0] at h3
        simp [pyTruthyOpt] at h3

/-- A model stream that ends normally having produced no truthy fragment
(one `None` delta, one empty delta). -/
def wModelEmpty : ModelStream :=
  { chunks := [none, some ""], outcome := .success }

/-- Witness for C8 at a concrete store and empty model stream. -/
theorem C8_empty_answer_witness :
    get_qa_by_id [wPending] 1 = some wPending ∧
    contextTruthy (get_report_context wReports wPending.report_id) = true ∧
    truthyFragments wModelEmpty.chunks = [] ∧
    (framesOf (stream_answer_trace .insights [wPending] wReports 1 wModelEmpty false) =
        [Frame.done] ∧
      get_qa_by_id
          (stream_final_store .insights [wPending] wReports 1 wModelEmpty false) 1 =
        some { wPending with answer := some "", status := "COMPLETED" } ∧
      (∀ v' s' rid' qid' r, r ∈ variant_window v' s' rid' qid' →
        r.answer ≠ some "")) :=
  ⟨by decide, by decide, by decide,
    C8_empty_answer .insights [wPending] wReports 1 wModelEmpty false wPending
      (by decide) (by decide) rfl (by decide)⟩

/-- C9: a report whose stored context blob is the empty JSON object is
treated exactly like one with no context at all: `init_chat` raises the
variant's ContextMissing error leaving the store unchanged, and
`stream_answer_generator` on a turn of that report yields only the terminal
context-missing ERROR frame — the truthiness check `if not mcp_data` does
not distinguish `{}` from an absent blob. -/
theorem C9_empty_context_object (v : Variant) (store : QAStore)
    (reports : ReportStore) (u m q : String) (rid nid now qid : Nat)
    (model : ModelStream) (wf : Bool) (qa : QARecord)
    (h : get_report_context reports rid = some []) :
    init_chat v store reports u m rid q nid now = (.error (initErrCode v), store) ∧
    (get_qa_by_id store qid = some qa → qa.report_id = rid →
      stream_answer_trace v store reports qid model wf =
        [.yield (.error (contextMissingMsg v))]) := by
  have hc : contextTruthy (get_report_context reports rid) = false := by
    rw [h]
    rfl
  constructor
  · unfold init_chat
    rw [hc]
    simp
  · intro hq hrep
    simp [stream_answer_trace, hq, hrep, hc]

/-- Witness for C9: a report row holding the empty object. -/
theorem C9_empty_context_object_witness :
    get_report_context [({ id := 10, mcp_data := some [] } : ReportRow)] 10 =
      some [] ∧
    (init_chat .operations [wPending] [{ id := 10, mcp_data := some [] }]
        "u1" "m1" 10 "q2" 2 200 =
      (.error (initErrCode .operations), [wPending]) ∧
    (get_qa_by_id [wPending] 1 = some wPending → wPending.report_id = 10 →
      stream_answer_trace .operations [wPending] [{ id := 10, mcp_data := some [] }]
          1 wModelOk false =
        [.yield (.error (contextMissingMsg .operations))])) :=
  ⟨rfl,
    C9_empty_context_object .operations [wPending] [{ id := 10, mcp_data := some [] }]
      "u1" "m1" "q2" 10 2 200 1 wModelOk false wPending rfl⟩

lemma string_append_left_cancel {s a b : String} (h : s ++ a = s ++ b) : a = b := by
  have hd := congrArg String.data h
  rw [String.data_append, String.data_append] at hd
  exact String.ext (List.append_cancel_left hd)

lemma redisGet_cons_ne (p : String × String) (r : Redis) (k : String)
    (h : (p.1 == k) = false) : redisGet (p :: r) k = redisGet r k := by
  simp [redisGet, List.find?_cons, h]

lemma redisGet_cons_eq (k v : String) (r : Redis) :
    redisGet ((k, v) :: r) k = some v := by
  simp [redisGet, List.find?_cons]

lemma redisGet_delete_self (r : Redis) (k : String) :
    redisGet (redisDelete r k) k = none := by
  simp [redisGet, redisDelete]

lemma redisGet_delete_ne (r : Redis) (k k' : String) (h : k ≠ k') :
    redisGet (redisDelete r k') k = redisGet r k := by
  induction r with
  | nil => rfl
  | cons p r ih =>
      by_cases hp : p.1 = k'
      · have hpk : ¬k' = k := fun hkk => h hkk.symm
        simpa [redisGet, redisDelete, List.filter_cons, List.find?_cons, hp, hpk]
          using ih
      · by_cases hk : p.1 = k
        · simp [redisGet, redisDelete, List.filter_cons, List.find?_cons, hp, hk, h]
        · simpa [redisGet, redisDelete, List.filter_cons, List.find?_cons, hp, hk]
            using ih

/-- C10: redeeming a live refresh credential deletes the old mapping and
issues a brand-new pair whose access credential carries exactly the stored
subject id; the user table plays no part in the operation (the result is
identical for any two user tables), so a deactivated or soft-deleted user
holding a live refresh credential still obtains fresh credentials. -/
theorem C10_refresh_ignores_user_state (redis : Redis) (users users' : UserStore)
    (token newRefresh uid : String)
    (h : redisGet redis ("refresh_token:" ++ token) = some uid)
    (hne : uid ≠ "") (htok : newRefresh ≠ token) :
    (refresh_token redis users token newRefresh).1 =
      .ok { access_subject := uid, refresh_token := newRefresh } ∧
    redisGet (refresh_token redis users token newRefresh).2
        ("refresh_token:" ++ token) = none ∧
    redisGet (refresh_token redis users token newRefresh).2
        ("refresh_token:" ++ newRefresh) = some uid ∧
    refresh_token redis users token newRefresh =
      refresh_token redis users' token newRefresh := by
  have hkeys : ("refresh_token:" ++ token) ≠ ("refresh_token:" ++ newRefresh) :=
    fun hEq => htok (string_append_left_cancel hEq).symm
  have hb : (("refresh_token:" ++ newRefresh) == ("refresh_token:" ++ token)) =
      false := by
    rw [beq_eq_false_iff_ne]
    exact fun hEq => hkeys hEq.symm
  simp only [refresh_token, h]
  rw [if_neg hne]
  refine ⟨rfl, ?_, ?_, by trivial⟩
  · show redisGet (redisSetex (redisDelete redis ("refresh_token:" ++ token))
        ("refresh_token:" ++ newRefresh) uid) ("refresh_token:" ++ token) = none
    simp only [redisSetex]
    rw [redisGet_cons_ne _ _ _ hb, redisGet_delete_ne _ _ _ hkeys]
    exact redisGet_delete_self redis _
  · show redisGet (redisSetex (redisDelete redis ("refresh_token:" ++ token))
        ("refresh_token:" ++ newRefresh) uid) ("refresh_token:" ++ newRefresh) =
      some uid
    simp only [redisSetex]
    exact redisGet_cons_eq _ _ _

/-- Witness for C10: a live mapping for a user who is deactivated and
soft-deleted in the user table. -/
theorem C10_refresh_ignores_user_state_witness :
    redisGet [("refresh_token:abc", "7")] ("refresh_token:" ++ "abc") = some "7" ∧
    "7" ≠ "" ∧
    ((refresh_token [("refresh_token:abc", "7")]
        [{ id := 7, phone_number := "p1", hashed_password := "pw",
           is_active := false, is_deleted := true }] "abc" "def").1 =
      .ok { access_subject := "7", refresh_token := "def" } ∧
    redisGet (refresh_token [("refresh_token:abc", "7")]
        [{ id := 7, phone_number := "p1", hashed_password := "pw",
           is_active := false, is_deleted := true }] "abc" "def").2
        ("refresh_token:" ++ "abc") = none ∧
    redisGet (refresh_token [("refresh_token:abc", "7")]
        [{ id := 7, phone_number := "p1", hashed_password := "pw",
           is_active := false, is_deleted := true }] "abc" "def").2
        ("refresh_token:" ++ "def") = some "7" ∧
    refresh_token [("refresh_token:abc", "7")]
        [{ id := 7, phone_number := "p1", hashed_password := "pw",
           is_active := false, is_deleted := true }] "abc" "def" =
      refresh_token [("refresh_token:abc", "7")] [] "abc" "def") :=
  ⟨by decide, by decide,
    C10_refresh_ignores_user_state [("refresh_token:abc", "7")]
      [{ id := 7, phone_number := "p1", hashed_password := "pw",
         is_active := false, is_deleted := true }] [] "abc" "def" "7"
      (by decide) (by decide) (by decide)⟩

end Seergo
